import Mathlib

/-!
Verification of the equipment-type hierarchy resolution and
classification-validation engine.

The taxonomy node type mirrors the `EquipmentType` interface
(`src/frontend/src/types/equipment.ts`, `equipment-type.entity.ts`):
an opaque id, a display name, a numeric level and an optional embedded
parent record.  The `children` array, timestamps and persistence ids are
never read by the functions under study and are omitted.
-/

set_option maxRecDepth 4096

inductive EquipmentType where
  | mk (id : String) (name : String) (level : Nat) (parent : Option EquipmentType)

def EquipmentType.id : EquipmentType → String
  | .mk i _ _ _ => i

def EquipmentType.name : EquipmentType → String
  | .mk _ n _ _ => n

def EquipmentType.level : EquipmentType → Nat
  | .mk _ _ l _ => l

def EquipmentType.parent : EquipmentType → Option EquipmentType
  | .mk _ _ _ p => p

@[simp] theorem EquipmentType.id_mk (i n : String) (l : Nat) (p : Option EquipmentType) :
    (EquipmentType.mk i n l p).id = i := rfl

@[simp] theorem EquipmentType.name_mk (i n : String) (l : Nat) (p : Option EquipmentType) :
    (EquipmentType.mk i n l p).name = n := rfl

@[simp] theorem EquipmentType.level_mk (i n : String) (l : Nat) (p : Option EquipmentType) :
    (EquipmentType.mk i n l p).level = l := rfl

@[simp] theorem EquipmentType.parent_mk (i n : String) (l : Nat) (p : Option EquipmentType) :
    (EquipmentType.mk i n l p).parent = p := rfl

/-- `t.parent?.name` of the TypeScript source: `none` models `undefined`. -/
def parentName (t : EquipmentType) : Option String :=
  t.parent.map EquipmentType.name

/-- `t.parent?.parent?.name` of the TypeScript source. -/
def parent2Name (t : EquipmentType) : Option String :=
  (t.parent.bind EquipmentType.parent).map EquipmentType.name

/-- `t.parent?.parent?.parent?.name` of the TypeScript source. -/
def parent3Name (t : EquipmentType) : Option String :=
  ((t.parent.bind EquipmentType.parent).bind EquipmentType.parent).map EquipmentType.name

/-- JavaScript truthiness of a `string | undefined | null` value:
`undefined`, `null` and the empty string are falsy. -/
def strTruthy : Option String → Bool
  | none => false
  | some s => !(s == "")

/-- JavaScript `x || d` on a `string | undefined` value. -/
def jsOrString (x : Option String) (d : String) : String :=
  match x with
  | none => d
  | some s => if s == "" then d else s

/-- JavaScript `x || d` on a `number | undefined` value
(`0` and `NaN` are falsy). -/
def jsOrFloat (x : Option Float) (d : Float) : Float :=
  match x with
  | none => d
  | some v => if v == 0 || v.isNaN then d else v

/-- The untrusted candidate parsed from the classifier response
(the `detection : any` argument of `validateDetection`): every field may
be absent. -/
structure DetectionCandidate where
  domain : Option String
  type : Option String
  category : Option String
  subcategory : Option String
  confidence : Option Float
  reasoning : Option String

/-- The `AIDetectionResult` interface of
`src/backend/src/application/services/ai-detection.service.ts`. -/
structure AIDetectionResult where
  domain : Option String
  type : Option String
  category : Option String
  subcategory : Option String
  confidence : Float
  reasoning : String

/-- The `domainExists` probe of `validateDetection`
(ai-detection.service.ts line 347). -/
def domainOkB (detection : DetectionCandidate) (equipmentTypes : List EquipmentType) : Bool :=
  equipmentTypes.any (fun t => t.level == 1 && some t.name == detection.domain)

/-- The `typeExists` probe of `validateDetection` (line 356): the parent
name is compared with the raw `detection.domain`, not with the already
validated result. -/
def typeOkB (detection : DetectionCandidate) (equipmentTypes : List EquipmentType) : Bool :=
  equipmentTypes.any (fun t =>
    t.level == 2 && some t.name == detection.type && parentName t == detection.domain)

/-- The `categoryExists` probe of `validateDetection` (line 367):
compared with the raw `detection.type`. -/
def categoryOkB (detection : DetectionCandidate) (equipmentTypes : List EquipmentType) : Bool :=
  equipmentTypes.any (fun t =>
    t.level == 3 && some t.name == detection.category && parentName t == detection.type)

/-- The `subcategoryExists` probe of `validateDetection` (line 378):
compared with the raw `detection.category`. -/
def subcategoryOkB (detection : DetectionCandidate) (equipmentTypes : List EquipmentType) : Bool :=
  equipmentTypes.any (fun t =>
    t.level == 4 && some t.name == detection.subcategory && parentName t == detection.category)

/-- `validateDetection` (ai-detection.service.ts lines 336-389).  The
source assigns the four fields one after the other, but every guard
reads only the raw `detection` object and never the partially built
`result`, so the four assignments are independent and the function is
exactly this record. -/
def validateDetection (detection : DetectionCandidate)
    (equipmentTypes : List EquipmentType) : AIDetectionResult :=
  { domain :=
      if strTruthy detection.domain && domainOkB detection equipmentTypes then
        detection.domain
      else none
    type :=
      if strTruthy detection.type && strTruthy detection.domain &&
          typeOkB detection equipmentTypes then
        detection.type
      else none
    category :=
      if strTruthy detection.category && strTruthy detection.type &&
          categoryOkB detection equipmentTypes then
        detection.category
      else none
    subcategory :=
      if strTruthy detection.subcategory && strTruthy detection.category &&
          subcategoryOkB detection equipmentTypes then
        detection.subcategory
      else none
    confidence := jsOrFloat detection.confidence 0
    reasoning := jsOrString detection.reasoning ("No reasoning provided") }

/-- The concrete four-node chain of the spec scenario:
HEATING → Boiler → Gas Boiler → Wall-mounted Gas Boiler. -/
def heatingNode : EquipmentType := .mk ("id-heating") ("HEATING") 1 none

def boilerNode : EquipmentType := .mk ("id-boiler") ("Boiler") 2 (some heatingNode)

def gasBoilerNode : EquipmentType := .mk ("id-gas-boiler") ("Gas Boiler") 3 (some boilerNode)

def wallGasBoilerNode : EquipmentType :=
  .mk ("id-wall-gas-boiler") ("Wall-mounted Gas Boiler") 4 (some gasBoilerNode)

def scenarioTree : List EquipmentType :=
  [heatingNode, boilerNode, gasBoilerNode, wallGasBoilerNode]

/-- The well-formedness invariant of the taxonomy (spec section 3): every
stored parent is itself a node of the tree and sits one level higher. -/
def wfTree (ts : List EquipmentType) : Prop :=
  ∀ t ∈ ts, ∀ p, t.parent = some p → p ∈ ts ∧ t.level = p.level + 1

/-- The spec's scenario candidate with a domain name that exists nowhere
in the tree, while type, category and subcategory name real nodes. -/
def ghostDomainCandidate : DetectionCandidate :=
  ⟨some ("GHOST"), some ("Boiler"), some ("Gas Boiler"),
    some ("Wall-mounted Gas Boiler"), none, none⟩

/-- C1, counterexample: in the HEATING chain tree, a candidate whose
domain ("GHOST") exists nowhere still gets its category and subcategory
accepted, because `validateDetection` checks each level's parent against
the raw candidate field rather than the validated result.  The claim
says every field of the result must be absent. -/
theorem c1_counterexample :
    (validateDetection ghostDomainCandidate scenarioTree).domain = none ∧
    (validateDetection ghostDomainCandidate scenarioTree).type = none ∧
    (validateDetection ghostDomainCandidate scenarioTree).category = some ("Gas Boiler") ∧
    (validateDetection ghostDomainCandidate scenarioTree).subcategory =
      some ("Wall-mounted Gas Boiler") := by
  decide

/-- C1, amended: when the candidate's domain names no level-1 node of a
well-formed tree, the domain and type fields of the result are absent;
category and subcategory may nevertheless be populated, because each
deeper level is checked against the raw candidate's parent name only. -/
theorem c1_amended (ts : List EquipmentType) (det : DetectionCandidate) (D : String)
    (hwf : wfTree ts) (hdom : det.domain = some D)
    (hnone : ∀ t ∈ ts, ¬(t.level = 1 ∧ t.name = D)) :
    (validateDetection det ts).domain = none ∧ (validateDetection det ts).type = none := by
  have hDomOk : domainOkB det ts = false := by
    rw [Bool.eq_false_iff]
    intro hany
    simp only [domainOkB, List.any_eq_true, Bool.and_eq_true, beq_iff_eq] at hany
    obtain ⟨t, ht, hlev, hname⟩ := hany
    rw [hdom, Option.some.injEq] at hname
    exact hnone t ht ⟨hlev, hname⟩
  have hTypeOk : typeOkB det ts = false := by
    rw [Bool.eq_false_iff]
    intro hany
    simp only [typeOkB, List.any_eq_true, Bool.and_eq_true, beq_iff_eq] at hany
    obtain ⟨t, ht, ⟨hlev, _⟩, hpar⟩ := hany
    rw [hdom] at hpar
    cases hp : t.parent with
    | none => rw [parentName, hp] at hpar; simp at hpar
    | some p =>
      rw [parentName, hp] at hpar
      simp only [Option.map_some', Option.some.injEq] at hpar
      obtain ⟨hmem, hlevp⟩ := hwf t ht p hp
      rw [hlev] at hlevp
      exact hnone p hmem ⟨by omega, hpar⟩
  constructor
  · simp [validateDetection, hDomOk]
  · simp [validateDetection, hTypeOk]

/-- The scenario tree is well-formed. -/
theorem wf_scenarioTree : wfTree scenarioTree := by
  intro t ht p hp
  simp only [scenarioTree, heatingNode, boilerNode, gasBoilerNode, wallGasBoilerNode,
    List.mem_cons, List.not_mem_nil, or_false] at ht
  rcases ht with rfl | rfl | rfl | rfl <;>
    simp only [EquipmentType.parent_mk, Option.some.injEq, reduceCtorEq] at hp
  · subst hp
    exact ⟨by simp [scenarioTree, heatingNode, boilerNode, gasBoilerNode,
      wallGasBoilerNode], by simp⟩
  · subst hp
    exact ⟨by simp [scenarioTree, heatingNode, boilerNode, gasBoilerNode,
      wallGasBoilerNode], by simp⟩
  · subst hp
    exact ⟨by simp [scenarioTree, heatingNode, boilerNode, gasBoilerNode,
      wallGasBoilerNode], by simp⟩

/-- C1, witness for the amended theorem: instantiated at the ghost-domain
candidate over the scenario tree. -/
theorem c1_witness :
    (validateDetection ghostDomainCandidate scenarioTree).domain = none ∧
    (validateDetection ghostDomainCandidate scenarioTree).type = none :=
  c1_amended scenarioTree ghostDomainCandidate ("GHOST")
    wf_scenarioTree rfl (by decide)

/-- The spec's second scenario candidate: a real domain with a type
("Elevator") that is not a child of that domain, and a category and
subcategory that do form a real chain elsewhere under it. -/
def elevatorCandidate : DetectionCandidate :=
  ⟨some ("HEATING"), some ("Elevator"), some ("Gas Boiler"),
    some ("Wall-mounted Gas Boiler"), none, none⟩

/-- C2, counterexample: the claim says the only populated field is the
domain, but the code also accepts the subcategory, whose parent name is
checked against the raw candidate's category ("Gas Boiler"), which does
match in the tree. -/
theorem c2_counterexample :
    (validateDetection elevatorCandidate scenarioTree).subcategory ≠ none := by
  decide

/-- C2, amended: for the scenario tree and the Elevator candidate,
`validateDetection` returns domain "HEATING" and subcategory
"Wall-mounted Gas Boiler" populated, with type and category absent. -/
theorem c2_amended :
    (validateDetection elevatorCandidate scenarioTree).domain = some ("HEATING") ∧
    (validateDetection elevatorCandidate scenarioTree).type = none ∧
    (validateDetection elevatorCandidate scenarioTree).category = none ∧
    (validateDetection elevatorCandidate scenarioTree).subcategory =
      some ("Wall-mounted Gas Boiler") := by
  decide

/-!
The cascading selection component (`CascadeEquipmentTypeSelect`): four
string-valued slots held in React state, with the empty string modelling
an unselected slot exactly as in the source.
-/

structure CascadeState where
  selectedDomain : String
  selectedType : String
  selectedCategory : String
  selectedSubcategory : String

/-- `handleDomainChange` of `CascadeEquipmentTypeSelect`. -/
def handleDomainChange (st : CascadeState) (domain : String) : CascadeState :=
  { st with
      selectedDomain := domain
      selectedType := ""
      selectedCategory := ""
      selectedSubcategory := "" }

/-- `handleTypeChange` of `CascadeEquipmentTypeSelect`. -/
def handleTypeChange (st : CascadeState) (type : String) : CascadeState :=
  { st with
      selectedType := type
      selectedCategory := ""
      selectedSubcategory := "" }

/-- `handleCategoryChange` of `CascadeEquipmentTypeSelect`. -/
def handleCategoryChange (st : CascadeState) (category : String) : CascadeState :=
  { st with
      selectedCategory := category
      selectedSubcategory := "" }

/-- The subcategory select wires `onValueChange` straight to
`setSelectedSubcategory`: no other slot is touched. -/
def handleSubcategoryChange (st : CascadeState) (subcategory : String) : CascadeState :=
  { st with selectedSubcategory := subcategory }

/-- `findEquipmentTypeId` of `CascadeEquipmentTypeSelect`: resolves the
deepest selected level, checking only the immediate parent's name. -/
def findEquipmentTypeId (st : CascadeState) (equipmentTypes : List EquipmentType) : String :=
  if strTruthy (some st.selectedSubcategory) then
    match equipmentTypes.find? (fun t =>
      t.level == 4 && t.name == st.selectedSubcategory &&
        parentName t == some st.selectedCategory) with
    | some t => t.id
    | none => ("")
  else if strTruthy (some st.selectedCategory) then
    match equipmentTypes.find? (fun t =>
      t.level == 3 && t.name == st.selectedCategory &&
        parentName t == some st.selectedType) with
    | some t => t.id
    | none => ("")
  else if strTruthy (some st.selectedType) then
    match equipmentTypes.find? (fun t =>
      t.level == 2 && t.name == st.selectedType &&
        parentName t == some st.selectedDomain) with
    | some t => t.id
    | none => ("")
  else if strTruthy (some st.selectedDomain) then
    match equipmentTypes.find? (fun t =>
      t.level == 1 && t.name == st.selectedDomain) with
    | some t => t.id
    | none => ("")
  else ("")

/-- The id-propagation `useEffect` of `CascadeEquipmentTypeSelect` (lines
71-76): `onValueChange` fires only when `findEquipmentTypeId` yields a
truthy (non-empty) id, so the consumer keeps its previous value
otherwise.  `lastEmitted` is the id currently exposed to the consumer. -/
def propagateId (st : CascadeState) (equipmentTypes : List EquipmentType)
    (lastEmitted : String) : String :=
  let equipmentTypeId := findEquipmentTypeId st equipmentTypes
  if equipmentTypeId == "" then lastEmitted else equipmentTypeId

/-- C9: from any state, selecting a domain clears type, category and
subcategory; a type clears category and subcategory; a category clears
subcategory; a subcategory clears nothing. -/
theorem c9_theorem (st : CascadeState) (d ty c sc : String) :
    handleDomainChange st d = ⟨d, "", "", ""⟩ ∧
    handleTypeChange st ty = ⟨st.selectedDomain, ty, "", ""⟩ ∧
    handleCategoryChange st c = ⟨st.selectedDomain, st.selectedType, c, ""⟩ ∧
    handleSubcategoryChange st sc =
      ⟨st.selectedDomain, st.selectedType, st.selectedCategory, sc⟩ := by
  exact ⟨rfl, rfl, rfl, rfl⟩

/-- C10: when the deepest selected level fails to resolve (the helper
returns the empty string), no id update is emitted and the previously
emitted id stays exposed. -/
theorem c10_theorem (st : CascadeState) (equipmentTypes : List EquipmentType)
    (lastEmitted : String) (h : findEquipmentTypeId st equipmentTypes = "") :
    propagateId st equipmentTypes lastEmitted = lastEmitted := by
  simp [propagateId, h]

/-- C10, witness: after selecting a domain that exists in no tree node,
the helper resolves to the empty string and the previously emitted id
("id-boiler") remains exposed unchanged. -/
theorem c10_witness :
    propagateId (handleDomainChange ⟨"", "", "", ""⟩ ("GHOST")) scenarioTree ("id-boiler") =
      "id-boiler" :=
  c10_theorem (handleDomainChange ⟨"", "", "", ""⟩ ("GHOST")) scenarioTree ("id-boiler")
    (by decide)

/-!
The ancestor-path walker shared by the frontend
(`src/frontend/src/lib/utils.ts`, `getEquipmentTypeHierarchy`) and the
backend (`ai-detection.service.ts`, same name): follow `parent`
references upward, `unshift`-ing each name, so the resulting list runs
from the domain ancestor down to the given node.
-/

def pathParts : EquipmentType → List String
  | .mk _ n _ none => [n]
  | .mk _ n _ (some p) => pathParts p ++ [n]

/-- The record returned by `getEquipmentTypeHierarchy`: `pathParts[i]`
reads `undefined` past the end of the array, modelled by `none`. -/
structure Hierarchy where
  domain : Option String
  type : Option String
  category : Option String
  subcategory : Option String
  fullPath : Option String

/-- `getEquipmentTypeHierarchy` of `src/frontend/src/lib/utils.ts`
(lines 16-53); the backend variant omits `fullPath`. -/
def getEquipmentTypeHierarchy (equipmentType : EquipmentType)
    (includeFullPath : Bool) : Hierarchy :=
  let parts := pathParts equipmentType
  { domain := parts[0]?
    type := parts[1]?
    category := parts[2]?
    subcategory := parts[3]?
    fullPath := if includeFullPath then some (String.intercalate (" > ") parts) else none }

/-- The data-model invariant of spec section 3 along one node's stored
parent chain: the chain is complete and each node's level is its
parent's level plus one, with a parentless node at level 1. -/
def levelsConsistent : EquipmentType → Prop
  | .mk _ _ l none => l = 1
  | .mk _ _ l (some p) => l = p.level + 1 ∧ levelsConsistent p

/-- C5: for a node with a complete, level-consistent parent chain, the
computed path has length `n.level` and ends with `n.name`. -/
theorem c5_theorem : ∀ (n : EquipmentType), levelsConsistent n →
    (pathParts n).length = n.level ∧ (pathParts n).getLast? = some n.name
  | .mk i nm l none, h => by
    simp only [levelsConsistent] at h
    simp [pathParts, h]
  | .mk i nm l (some p), h => by
    simp only [levelsConsistent] at h
    have ih := c5_theorem p h.2
    simp only [pathParts, List.length_append, List.length_singleton, ih.1,
      EquipmentType.level_mk, EquipmentType.name_mk, h.1, List.getLast?_append]
    simp

/-- C5, witness: the deepest scenario node has a four-element path
ending in its own name. -/
theorem c5_witness :
    (pathParts wallGasBoilerNode).length = wallGasBoilerNode.level ∧
    (pathParts wallGasBoilerNode).getLast? = some wallGasBoilerNode.name :=
  c5_theorem wallGasBoilerNode
    (by simp [wallGasBoilerNode, gasBoilerNode, boilerNode, heatingNode, levelsConsistent])

/-!
`createHierarchySummary` (ai-detection.service.ts lines 136-189) builds
a nested plain-object digest.  JavaScript objects keep insertion order
and assignment to an existing key overwrites in place, which the
association lists below reproduce exactly.
-/

structure CatData where
  count : Nat

structure TypeData where
  count : Nat
  categories : List (String × CatData)

structure DomainData where
  count : Nat
  types : List (String × TypeData)

abbrev Summary := List (String × DomainData)

/-- JavaScript object read `obj[k]`: first (only) binding of the key. -/
def findA {α : Type} : List (String × α) → String → Option α
  | [], _ => none
  | (k', v') :: rest, k => if k' = k then some v' else findA rest k

/-- JavaScript object write `obj[k] = v`: overwrite in place, or append
a new binding at the end. -/
def setA {α : Type} : List (String × α) → String → α → List (String × α)
  | [], k, v => [(k, v)]
  | (k', v') :: rest, k, v =>
    if k' = k then (k, v) :: rest else (k', v') :: setA rest k v

/-- The level-2 branch body of the `forEach` loop: ensure the domain
entry `dn` exists, overwrite its type entry `tn` with a fresh zero
record, increment the domain count. -/
def bumpDomain2 (s : Summary) (dn tn : String) : Summary :=
  let s1 := if (findA s dn).isSome then s else setA s dn ⟨0, []⟩
  let dd := (findA s1 dn).getD ⟨0, []⟩
  setA s1 dn ⟨dd.count + 1, setA dd.types tn ⟨0, []⟩⟩

/-- The level-3 branch body: ensure domain `dn` and type `tn` exist,
overwrite category `cn` with a zero record, increment the type and
domain counts. -/
def bumpDomain3 (s : Summary) (dn tn cn : String) : Summary :=
  let s1 := if (findA s dn).isSome then s else setA s dn ⟨0, []⟩
  let dd := (findA s1 dn).getD ⟨0, []⟩
  let td := (findA dd.types tn).getD ⟨0, []⟩
  setA s1 dn
    ⟨dd.count + 1, setA dd.types tn
      ⟨td.count + 1, setA td.categories cn ⟨0⟩⟩⟩

/-- The level-4 branch body: ensure domain `dn`, type `tn` and category
`cn` exist and increment all three counts (the level-4 node's own name
is never recorded by the source). -/
def bumpDomain4 (s : Summary) (dn tn cn : String) : Summary :=
  let s1 := if (findA s dn).isSome then s else setA s dn ⟨0, []⟩
  let dd := (findA s1 dn).getD ⟨0, []⟩
  let td := (findA dd.types tn).getD ⟨0, []⟩
  let cd := (findA td.categories cn).getD ⟨0⟩
  setA s1 dn
    ⟨dd.count + 1, setA dd.types tn
      ⟨td.count + 1, setA td.categories cn ⟨cd.count + 1⟩⟩⟩

/-- One iteration of the `equipmentTypes.forEach` loop of
`createHierarchySummary`: dispatch on the node's level and the
availability of its parent chain, exactly as the source's `else if`
ladder with its `type.parent`, `type.parent?.parent` and
`type.parent?.parent?.parent` guards. -/
def summarizeStep (summary : Summary) (t : EquipmentType) : Summary :=
  if t.level = 1 then
    setA summary t.name ⟨0, []⟩
  else if t.level = 2 then
    match t.parent with
    | none => summary
    | some p => bumpDomain2 summary p.name t.name
  else if t.level = 3 then
    match t.parent with
    | none => summary
    | some p =>
      match p.parent with
      | none => summary
      | some pp => bumpDomain3 summary pp.name p.name t.name
  else if t.level = 4 then
    match t.parent with
    | none => summary
    | some p =>
      match p.parent with
      | none => summary
      | some pp =>
        match pp.parent with
        | none => summary
        | some ppp => bumpDomain4 summary ppp.name pp.name p.name
  else summary

/-- The grouping phase of `createHierarchySummary`. -/
def buildSummary (equipmentTypes : List EquipmentType) : Summary :=
  equipmentTypes.foldl summarizeStep []

/-- The rendering phase of `createHierarchySummary` ("Convert to
readable format"). -/
def renderSummary (summary : Summary) : String :=
  summary.foldl
    (fun acc entry =>
      let acc1 := acc ++ "\n" ++ entry.1 ++ " (" ++ toString entry.2.count
        ++ " total items):\n"
      entry.2.types.foldl
        (fun acc2 tentry =>
          let acc3 := acc2 ++ "  - " ++ tentry.1 ++ " (" ++ toString tentry.2.count
            ++ " categories)\n"
          tentry.2.categories.foldl
            (fun acc4 centry =>
              acc4 ++ "    * " ++ centry.1 ++ " (" ++ toString centry.2.count
                ++ " subcategories)\n")
            acc3)
        acc1)
    ""

/-- `createHierarchySummary` (ai-detection.service.ts lines 136-189). -/
def createHierarchySummary (equipmentTypes : List EquipmentType) : String :=
  renderSummary (buildSummary equipmentTypes)

/-!
The TTL cache around the summary (`getHierarchySummary`, lines 118-134).
The two instance fields become an explicit state record; `Date.now()`
becomes the `now` argument.
-/

structure CacheState where
  cachedHierarchySummary : Option String
  lastCacheUpdate : Int

def CACHE_DURATION : Int := 5 * 60 * 1000

/-- `getHierarchySummary` (lines 118-134): the guard is the JavaScript
truthiness of `this.cachedHierarchySummary` (so a cached empty string
counts as no cache) conjoined with `now - lastCacheUpdate <
CACHE_DURATION`. -/
def getHierarchySummary (st : CacheState) (now : Int)
    (equipmentTypes : List EquipmentType) : String × CacheState :=
  if strTruthy st.cachedHierarchySummary = true ∧
      now - st.lastCacheUpdate < CACHE_DURATION then
    (st.cachedHierarchySummary.getD (""), st)
  else
    let summary := createHierarchySummary equipmentTypes
    (summary, ⟨some summary, now⟩)

/-- C7, counterexample: after an empty tree was summarized at time 0 the
cache holds the empty digest.  A call at time 1 — strictly inside the
5-minute TTL — with a changed tree does not return the cached digest
untouched: the empty cached string is falsy, so the digest is rebuilt
from the new tree and the timestamp is reset. -/
theorem c7_counterexample :
    (1 : Int) - 0 < CACHE_DURATION ∧
    createHierarchySummary [] = "" ∧
    (getHierarchySummary ⟨some (createHierarchySummary []), 0⟩ 1 [heatingNode]).1 ≠ "" ∧
    (getHierarchySummary ⟨some (createHierarchySummary []), 0⟩ 1 [heatingNode]).2.lastCacheUpdate = 1 := by
  decide

/-- C7, amended: a call strictly inside the TTL returns the cached
digest with both cache fields untouched, regardless of the supplied
tree, provided the cached digest is non-empty; a call at or after the
TTL (and likewise a call finding an absent or empty cached digest)
rebuilds the digest from the currently supplied tree, stores it, and
resets the timestamp to the current time. -/
theorem c7_amended (st : CacheState) (now : Int) (equipmentTypes : List EquipmentType) :
    (∀ c, st.cachedHierarchySummary = some c → c ≠ "" →
      now - st.lastCacheUpdate < CACHE_DURATION →
      getHierarchySummary st now equipmentTypes = (c, st)) ∧
    (CACHE_DURATION ≤ now - st.lastCacheUpdate →
      getHierarchySummary st now equipmentTypes =
        (createHierarchySummary equipmentTypes,
          ⟨some (createHierarchySummary equipmentTypes), now⟩)) := by
  constructor
  · intro c hc hne httl
    rw [getHierarchySummary, if_pos]
    · rw [hc]; rfl
    · exact ⟨by simp [strTruthy, hc, hne], httl⟩
  · intro httl
    rw [getHierarchySummary, if_neg]
    rintro ⟨-, hlt⟩
    omega

/-- C7, witness: a warm, non-empty cache hit inside the TTL, and a
rebuild at exactly the TTL boundary. -/
theorem c7_witness :
    getHierarchySummary ⟨some ("digest"), 0⟩ 1 [] = ("digest", ⟨some ("digest"), 0⟩) ∧
    getHierarchySummary ⟨some ("digest"), 0⟩ CACHE_DURATION [] =
      (createHierarchySummary [], ⟨some (createHierarchySummary []), CACHE_DURATION⟩) :=
  ⟨(c7_amended ⟨some ("digest"), 0⟩ 1 []).1 ("digest") rfl (by decide) (by decide),
    (c7_amended ⟨some ("digest"), 0⟩ CACHE_DURATION []).2 (by simp)⟩

/-!
`parseAIResponse` (ai-detection.service.ts lines 321-334) and the
`detectEquipmentType` error path (lines 45-52).  The regex
`/\x7b[\s\S]*\x7d/` matches greedily from the first opening brace that
precedes the last closing brace up to that last closing brace; both
failure paths of the source (`No JSON found in response` rethrown by the
catch, and a `JSON.parse` failure) surface as the same thrown
`Invalid AI response format`.  `JSON.parse` itself is platform library
code, abstracted as the `jsonParse` parameter producing the candidate
record or failing.
-/

def braceOpen : Char := Char.ofNat 123

def braceClose : Char := Char.ofNat 125

def lastIdxOf (c : Char) (cs : List Char) : Option Nat :=
  match cs.reverse.findIdx? (· = c) with
  | none => none
  | some j => some (cs.length - 1 - j)

/-- `response.match(/\x7b[\s\S]*\x7d/)`: the (single) match of the
greedy brace regex, when one exists. -/
def jsonBlockMatch (s : String) : Option String :=
  let cs := s.data
  match cs.findIdx? (· = braceOpen), lastIdxOf braceClose cs with
  | some i, some j =>
    if i < j then some (String.mk ((cs.drop i).take (j - i + 1))) else none
  | _, _ => none

/-- `parseAIResponse` (lines 321-334). -/
def parseAIResponse (jsonParse : String → Option DetectionCandidate)
    (response : String) : Except String DetectionCandidate :=
  match jsonBlockMatch response with
  | none => Except.error ("Invalid AI response format")
  | some block =>
    match jsonParse block with
    | none => Except.error ("Invalid AI response format")
    | some d => Except.ok d

/-- The fallback returned by `detectEquipmentType`'s catch block: the
classification is reported unavailable, all fields absent. -/
def fallbackDetection : AIDetectionResult :=
  ⟨none, none, none, none, 0, "AI detection service unavailable"⟩

/-- The parse-and-validate pipeline of `detectEquipmentType`
(lines 22-52), with the classifier transport abstracted to the raw
response string. -/
def detectEquipmentType (jsonParse : String → Option DetectionCandidate)
    (aiResponse : String) (equipmentTypes : List EquipmentType) : AIDetectionResult :=
  match parseAIResponse jsonParse aiResponse with
  | Except.ok d => validateDetection d equipmentTypes
  | Except.error _ => fallbackDetection

/-- C8: parsing fails exactly when no brace-delimited block of the
response parses as structured data; a parse failure is surfaced to the
caller as the unavailable-classification fallback instead of an
exception; and a candidate with invalid individual fields never fails —
each validated field is either the candidate's own value or silently
dropped to absent. -/
theorem c8_theorem (jsonParse : String → Option DetectionCandidate) (s : String)
    (ts : List EquipmentType) (d : DetectionCandidate) :
    ((parseAIResponse jsonParse s).isOk = ((jsonBlockMatch s).bind jsonParse).isSome) ∧
    (detectEquipmentType jsonParse s ts =
      match parseAIResponse jsonParse s with
      | Except.ok d0 => validateDetection d0 ts
      | Except.error _ => fallbackDetection) ∧
    ((validateDetection d ts).domain = none ∨ (validateDetection d ts).domain = d.domain) ∧
    ((validateDetection d ts).type = none ∨ (validateDetection d ts).type = d.type) ∧
    ((validateDetection d ts).category = none ∨
      (validateDetection d ts).category = d.category) ∧
    ((validateDetection d ts).subcategory = none ∨
      (validateDetection d ts).subcategory = d.subcategory) := by
  have hdrop : ∀ (c : Bool) (v : Option String),
      (if c = true then v else none) = none ∨ (if c = true then v else none) = v := by
    intro c v
    cases c
    · exact Or.inl (by simp)
    · exact Or.inr (by simp)
  refine ⟨?_, ?_, ?_, ?_, ?_, ?_⟩
  · cases hb : jsonBlockMatch s with
    | none => simp only [parseAIResponse, hb, Option.bind]; rfl
    | some block =>
      cases hp : jsonParse block with
      | none => simp only [parseAIResponse, hb, hp, Option.bind]; rfl
      | some d0 => simp only [parseAIResponse, hb, hp, Option.bind]; rfl
  · rw [detectEquipmentType]
  · exact hdrop _ _
  · exact hdrop _ _
  · exact hdrop _ _
  · exact hdrop _ _

/-- `targetType?.id || ''` of the frontend resolver. -/
def jsIdOrEmpty : Option EquipmentType → String
  | some t => t.id
  | none => ("")

/-- `findEquipmentTypeIdFromHierarchy` of `src/frontend/src/lib/utils.ts`
(lines 55-91): resolve the deepest truthy field, comparing the full
stored parent chain (including `undefined === undefined` for absent
fields) against the supplied record. -/
def findEquipmentTypeIdFromHierarchy (result : Hierarchy)
    (equipmentTypes : List EquipmentType) : String :=
  if strTruthy result.subcategory then
    jsIdOrEmpty (equipmentTypes.find? (fun t =>
      t.level == 4 && some t.name == result.subcategory &&
        parentName t == result.category && parent2Name t == result.type &&
        parent3Name t == result.domain))
  else if strTruthy result.category then
    jsIdOrEmpty (equipmentTypes.find? (fun t =>
      t.level == 3 && some t.name == result.category &&
        parentName t == result.type && parent2Name t == result.domain))
  else if strTruthy result.type then
    jsIdOrEmpty (equipmentTypes.find? (fun t =>
      t.level == 2 && some t.name == result.type && parentName t == result.domain))
  else if strTruthy result.domain then
    jsIdOrEmpty (equipmentTypes.find? (fun t =>
      t.level == 1 && some t.name == result.domain))
  else ("")

/-- Following the spec's words (section 4.1): a node at the deepest
non-null supplied level whose own name equals that field's value and
whose parent chain matches every shallower *supplied* field, in order —
unsupplied shallower levels are unconstrained. -/
def specDeepestMatch (c : Hierarchy) (t : EquipmentType) : Prop :=
  if strTruthy c.subcategory then
    t.level = 4 ∧ some t.name = c.subcategory ∧
      (strTruthy c.category = true → parentName t = c.category) ∧
      (strTruthy c.type = true → parent2Name t = c.type) ∧
      (strTruthy c.domain = true → parent3Name t = c.domain)
  else if strTruthy c.category then
    t.level = 3 ∧ some t.name = c.category ∧
      (strTruthy c.type = true → parentName t = c.type) ∧
      (strTruthy c.domain = true → parent2Name t = c.domain)
  else if strTruthy c.type then
    t.level = 2 ∧ some t.name = c.type ∧
      (strTruthy c.domain = true → parentName t = c.domain)
  else if strTruthy c.domain then
    t.level = 1 ∧ some t.name = c.domain
  else False

instance (c : Hierarchy) (t : EquipmentType) : Decidable (specDeepestMatch c t) := by
  unfold specDeepestMatch
  infer_instance

/-- A partial classification with a gap: domain, category and
subcategory supplied, type absent — exactly the shape `validateDetection`
can produce (see C2). -/
def gapHierarchy : Hierarchy :=
  ⟨some ("HEATING"), none, some ("Gas Boiler"),
    some ("Wall-mounted Gas Boiler"), none⟩

/-- C4, counterexample: the deepest scenario node satisfies the claimed
match condition for the gappy classification (its name and every
*supplied* shallower field line up), yet the resolver returns not-found,
because it requires the node's grandparent name to equal the absent
`type` field (`undefined`). -/
theorem c4_counterexample :
    specDeepestMatch gapHierarchy wallGasBoilerNode ∧
    wallGasBoilerNode ∈ scenarioTree ∧
    wallGasBoilerNode.id ≠ "" ∧
    findEquipmentTypeIdFromHierarchy gapHierarchy scenarioTree = "" := by
  refine ⟨by decide, by simp [scenarioTree], by decide, by decide⟩

/-- Branch workhorse: soundness and not-found completeness of one
`find?` branch of the resolver, given that its boolean predicate means
exactly the spec-side match property. -/
theorem resolveBranch (ts : List EquipmentType) (pred : EquipmentType → Bool)
    (P : EquipmentType → Prop) (hequiv : ∀ t, pred t = true ↔ P t) :
    (jsIdOrEmpty (ts.find? pred) ≠ "" →
      ∃ t ∈ ts, P t ∧ t.id = jsIdOrEmpty (ts.find? pred)) ∧
    ((¬ ∃ t ∈ ts, P t) → jsIdOrEmpty (ts.find? pred) = "") := by
  constructor
  · intro hne
    cases hf : ts.find? pred with
    | none => rw [hf] at hne; exact absurd rfl hne
    | some t =>
      refine ⟨t, List.mem_of_find?_eq_some hf, (hequiv t).mp (List.find?_some hf), ?_⟩
      rfl
  · intro hno
    have : ts.find? pred = none := by
      rw [List.find?_eq_none]
      intro t ht hpt
      exact hno ⟨t, ht, (hequiv t).mp hpt⟩
    rw [this]
    rfl

/-- C4, amended: for a partial classification whose supplied fields form
a contiguous chain from domain down to the deepest supplied level (no
gaps), a non-empty answer is the id of a tree node matching the claim's
deepest-level condition, and when no node matches, the resolver returns
not-found without falling back to a shallower supplied prefix.  For
gappy classifications the resolver additionally requires the ancestors
at unsupplied levels to be absent, which the counterexample exhibits. -/
theorem c4_amended (c : Hierarchy) (ts : List EquipmentType)
    (h43 : strTruthy c.subcategory = true → strTruthy c.category = true)
    (h32 : strTruthy c.category = true → strTruthy c.type = true)
    (h21 : strTruthy c.type = true → strTruthy c.domain = true)
    (hone : strTruthy c.domain = true) :
    (findEquipmentTypeIdFromHierarchy c ts ≠ "" →
      ∃ t ∈ ts, specDeepestMatch c t ∧
        t.id = findEquipmentTypeIdFromHierarchy c ts) ∧
    ((¬ ∃ t ∈ ts, specDeepestMatch c t) →
      findEquipmentTypeIdFromHierarchy c ts = "") := by
  by_cases hs : strTruthy c.subcategory = true
  · have hc := h43 hs
    have ht := h32 hc
    have hfe : findEquipmentTypeIdFromHierarchy c ts =
        jsIdOrEmpty (ts.find? (fun t =>
          t.level == 4 && some t.name == c.subcategory &&
            parentName t == c.category && parent2Name t == c.type &&
            parent3Name t == c.domain)) := by
      simp [findEquipmentTypeIdFromHierarchy, hs]
    rw [hfe]
    refine resolveBranch ts _ _ (fun t => ?_)
    simp [specDeepestMatch, hs, hc, ht, hone, Bool.and_eq_true, beq_iff_eq, and_assoc]
  · by_cases hcat : strTruthy c.category = true
    · have ht := h32 hcat
      have hfe : findEquipmentTypeIdFromHierarchy c ts =
          jsIdOrEmpty (ts.find? (fun t =>
            t.level == 3 && some t.name == c.category &&
              parentName t == c.type && parent2Name t == c.domain)) := by
        simp [findEquipmentTypeIdFromHierarchy, hs, hcat]
      rw [hfe]
      refine resolveBranch ts _ _ (fun t => ?_)
      simp [specDeepestMatch, hs, hcat, ht, hone, Bool.and_eq_true, beq_iff_eq, and_assoc]
    · by_cases hty : strTruthy c.type = true
      · have hfe : findEquipmentTypeIdFromHierarchy c ts =
            jsIdOrEmpty (ts.find? (fun t =>
              t.level == 2 && some t.name == c.type && parentName t == c.domain)) := by
          simp [findEquipmentTypeIdFromHierarchy, hs, hcat, hty]
        rw [hfe]
        refine resolveBranch ts _ _ (fun t => ?_)
        simp [specDeepestMatch, hs, hcat, hty, hone, Bool.and_eq_true, beq_iff_eq,
          and_assoc]
      · have hfe : findEquipmentTypeIdFromHierarchy c ts =
            jsIdOrEmpty (ts.find? (fun t =>
              t.level == 1 && some t.name == c.domain)) := by
          simp [findEquipmentTypeIdFromHierarchy, hs, hcat, hty, hone]
        rw [hfe]
        refine resolveBranch ts _ _ (fun t => ?_)
        simp [specDeepestMatch, hs, hcat, hty, hone, Bool.and_eq_true, beq_iff_eq]

/-- The fully supplied scenario path. -/
def fullHierarchy : Hierarchy :=
  ⟨some ("HEATING"), some ("Boiler"), some ("Gas Boiler"),
    some ("Wall-mounted Gas Boiler"), none⟩

/-- C4, witness: for the gap-free scenario path the resolver's non-empty
answer is the id of a node matching the spec condition. -/
theorem c4_witness :
    ∃ t ∈ scenarioTree, specDeepestMatch fullHierarchy t ∧
      t.id = findEquipmentTypeIdFromHierarchy fullHierarchy scenarioTree :=
  (c4_amended fullHierarchy scenarioTree (by decide) (by decide) (by decide)
    (by decide)).1 (by decide)

theorem pathParts_len_pos : ∀ (t : EquipmentType), 1 ≤ (pathParts t).length
  | .mk _ _ _ none => by simp [pathParts]
  | .mk _ _ _ (some p) => by simp [pathParts]

theorem pathParts_len_one : ∀ (t : EquipmentType), (pathParts t).length = 1 →
    t.parent = none ∧ pathParts t = [t.name]
  | .mk _ _ _ none, _ => ⟨rfl, rfl⟩
  | .mk _ _ _ (some p), h => by
    exfalso
    simp only [pathParts, List.length_append, List.length_singleton] at h
    have := pathParts_len_pos p
    omega

theorem pathParts_len_two : ∀ (t : EquipmentType), (pathParts t).length = 2 →
    ∃ p1, t.parent = some p1 ∧ p1.parent = none ∧ pathParts t = [p1.name, t.name]
  | .mk _ _ _ none, h => by simp [pathParts] at h
  | .mk _ _ _ (some p), h => by
    simp only [pathParts, List.length_append, List.length_singleton] at h
    obtain ⟨hpar, hpp⟩ := pathParts_len_one p (by omega)
    exact ⟨p, rfl, hpar, by simp [pathParts, hpp]⟩

theorem pathParts_len_three : ∀ (t : EquipmentType), (pathParts t).length = 3 →
    ∃ p1 p2, t.parent = some p1 ∧ p1.parent = some p2 ∧ p2.parent = none ∧
      pathParts t = [p2.name, p1.name, t.name]
  | .mk _ _ _ none, h => by simp [pathParts] at h
  | .mk _ _ _ (some p), h => by
    simp only [pathParts, List.length_append, List.length_singleton] at h
    obtain ⟨p2, hp1, hp2, hpp⟩ := pathParts_len_two p (by omega)
    exact ⟨p, p2, rfl, hp1, hp2, by simp [pathParts, hpp]⟩

theorem pathParts_len_four : ∀ (t : EquipmentType), (pathParts t).length = 4 →
    ∃ p1 p2 p3, t.parent = some p1 ∧ p1.parent = some p2 ∧ p2.parent = some p3 ∧
      p3.parent = none ∧ pathParts t = [p3.name, p2.name, p1.name, t.name]
  | .mk _ _ _ none, h => by simp [pathParts] at h
  | .mk _ _ _ (some p), h => by
    simp only [pathParts, List.length_append, List.length_singleton] at h
    obtain ⟨p2, p3, hp1, hp2, hp3, hpp⟩ := pathParts_len_three p (by omega)
    exact ⟨p, p2, p3, rfl, hp1, hp2, hp3, by simp [pathParts, hpp]⟩

/-- Two distinct level-1 nodes sharing the display name "AA". -/
def dupRootA : EquipmentType := .mk ("id-a1") ("AA") 1 none

def dupRootB : EquipmentType := .mk ("id-a2") ("AA") 1 none

def dupTree : List EquipmentType := [dupRootA, dupRootB]

/-- C3, counterexample: in a tree with two same-named domain nodes the
round-trip fails for the second one — resolution returns the id of the
first structurally consistent match, which is the other node. -/
theorem c3_counterexample :
    dupRootB ∈ dupTree ∧
    findEquipmentTypeIdFromHierarchy (getEquipmentTypeHierarchy dupRootB false) dupTree ≠
      dupRootB.id := by
  refine ⟨by simp [dupTree], by decide⟩

@[simp] theorem strTruthy_none : strTruthy none = false := rfl

theorem c3_resolve_len1 (ts : List EquipmentType) (n : EquipmentType)
    (h1 : ∀ t ∈ ts, t.level = (pathParts t).length)
    (h2 : ∀ a ∈ ts, ∀ b ∈ ts, pathParts a = pathParts b → a.id = b.id)
    (hn : n ∈ ts) (hname : n.name ≠ "") (hlen : (pathParts n).length = 1) :
    findEquipmentTypeIdFromHierarchy (getEquipmentTypeHierarchy n false) ts = n.id := by
  obtain ⟨hpar, hparts⟩ := pathParts_len_one n hlen
  have hh : getEquipmentTypeHierarchy n false =
      ⟨some n.name, none, none, none, none⟩ := by
    simp [getEquipmentTypeHierarchy, hparts]
  rw [hh]
  have htr : strTruthy (some n.name) = true := by simp [strTruthy, hname]
  have hpred : (fun t => t.level == 1 && some t.name == some n.name) n = true := by
    simp only [Bool.and_eq_true, beq_iff_eq, Option.some.injEq]
    exact ⟨by rw [h1 n hn, hlen], trivial⟩
  simp only [findEquipmentTypeIdFromHierarchy, strTruthy_none, htr, Bool.false_eq_true,
    if_false, if_true]
  cases hf : ts.find? (fun t => t.level == 1 && some t.name == some n.name) with
  | none => exact absurd hpred (List.find?_eq_none.mp hf n hn)
  | some t =>
    have hpt := List.find?_some hf
    have ht := List.mem_of_find?_eq_some hf
    simp only [Bool.and_eq_true, beq_iff_eq, Option.some.injEq] at hpt
    obtain ⟨hlev, hnm⟩ := hpt
    have hlent : (pathParts t).length = 1 := by rw [← h1 t ht, hlev]
    obtain ⟨_, hpartst⟩ := pathParts_len_one t hlent
    have hp : pathParts t = pathParts n := by rw [hpartst, hparts, hnm]
    have hid := h2 t ht n hn hp
    simp [jsIdOrEmpty, hid]

theorem parentName_some (t p : EquipmentType) (h : t.parent = some p) :
    parentName t = some p.name := by
  simp [parentName, h]

theorem parent2Name_some (t p1 p2 : EquipmentType) (h1 : t.parent = some p1)
    (h2 : p1.parent = some p2) : parent2Name t = some p2.name := by
  simp [parent2Name, h1, h2]

theorem parent3Name_some (t p1 p2 p3 : EquipmentType) (h1 : t.parent = some p1)
    (h2 : p1.parent = some p2) (h3 : p2.parent = some p3) :
    parent3Name t = some p3.name := by
  simp [parent3Name, h1, h2, h3]

theorem c3_resolve_len2 (ts : List EquipmentType) (n : EquipmentType)
    (h1 : ∀ t ∈ ts, t.level = (pathParts t).length)
    (h2 : ∀ a ∈ ts, ∀ b ∈ ts, pathParts a = pathParts b → a.id = b.id)
    (hn : n ∈ ts) (hname : n.name ≠ "") (hlen : (pathParts n).length = 2) :
    findEquipmentTypeIdFromHierarchy (getEquipmentTypeHierarchy n false) ts = n.id := by
  obtain ⟨p1, hp1, hp1top, hparts⟩ := pathParts_len_two n hlen
  have hh : getEquipmentTypeHierarchy n false =
      ⟨some p1.name, some n.name, none, none, none⟩ := by
    simp [getEquipmentTypeHierarchy, hparts]
  rw [hh]
  have htr : strTruthy (some n.name) = true := by simp [strTruthy, hname]
  have hpred : (fun t => t.level == 2 && some t.name == some n.name &&
      parentName t == some p1.name) n = true := by
    simp only [Bool.and_eq_true, beq_iff_eq, Option.some.injEq]
    exact ⟨⟨by rw [h1 n hn, hlen], trivial⟩, parentName_some n p1 hp1⟩
  simp only [findEquipmentTypeIdFromHierarchy, strTruthy_none, htr, Bool.false_eq_true,
    if_false, if_true]
  cases hf : ts.find? (fun t => t.level == 2 && some t.name == some n.name &&
      parentName t == some p1.name) with
  | none => exact absurd hpred (List.find?_eq_none.mp hf n hn)
  | some t =>
    have hpt := List.find?_some hf
    have ht := List.mem_of_find?_eq_some hf
    simp only [Bool.and_eq_true, beq_iff_eq, Option.some.injEq] at hpt
    obtain ⟨⟨hlev, hnm⟩, hpn⟩ := hpt
    have hlent : (pathParts t).length = 2 := by rw [← h1 t ht, hlev]
    obtain ⟨q1, hq1, hq1top, hpartst⟩ := pathParts_len_two t hlent
    rw [parentName_some t q1 hq1, Option.some.injEq] at hpn
    have hp : pathParts t = pathParts n := by rw [hpartst, hparts, hnm, hpn]
    have hid := h2 t ht n hn hp
    simp [jsIdOrEmpty, hid]

theorem c3_resolve_len3 (ts : List EquipmentType) (n : EquipmentType)
    (h1 : ∀ t ∈ ts, t.level = (pathParts t).length)
    (h2 : ∀ a ∈ ts, ∀ b ∈ ts, pathParts a = pathParts b → a.id = b.id)
    (hn : n ∈ ts) (hname : n.name ≠ "") (hlen : (pathParts n).length = 3) :
    findEquipmentTypeIdFromHierarchy (getEquipmentTypeHierarchy n false) ts = n.id := by
  obtain ⟨p1, p2, hp1, hp2, hp2top, hparts⟩ := pathParts_len_three n hlen
  have hh : getEquipmentTypeHierarchy n false =
      ⟨some p2.name, some p1.name, some n.name, none, none⟩ := by
    simp [getEquipmentTypeHierarchy, hparts]
  rw [hh]
  have htr : strTruthy (some n.name) = true := by simp [strTruthy, hname]
  have hpred : (fun t => t.level == 3 && some t.name == some n.name &&
      parentName t == some p1.name && parent2Name t == some p2.name) n = true := by
    simp only [Bool.and_eq_true, beq_iff_eq, Option.some.injEq]
    exact ⟨⟨⟨by rw [h1 n hn, hlen], trivial⟩, parentName_some n p1 hp1⟩,
      parent2Name_some n p1 p2 hp1 hp2⟩
  simp only [findEquipmentTypeIdFromHierarchy, strTruthy_none, htr, Bool.false_eq_true,
    if_false, if_true]
  cases hf : ts.find? (fun t => t.level == 3 && some t.name == some n.name &&
      parentName t == some p1.name && parent2Name t == some p2.name) with
  | none => exact absurd hpred (List.find?_eq_none.mp hf n hn)
  | some t =>
    have hpt := List.find?_some hf
    have ht := List.mem_of_find?_eq_some hf
    simp only [Bool.and_eq_true, beq_iff_eq, Option.some.injEq] at hpt
    obtain ⟨⟨⟨hlev, hnm⟩, hpn⟩, hpn2⟩ := hpt
    have hlent : (pathParts t).length = 3 := by rw [← h1 t ht, hlev]
    obtain ⟨q1, q2, hq1, hq2, hq2top, hpartst⟩ := pathParts_len_three t hlent
    rw [parentName_some t q1 hq1, Option.some.injEq] at hpn
    rw [parent2Name_some t q1 q2 hq1 hq2, Option.some.injEq] at hpn2
    have hp : pathParts t = pathParts n := by rw [hpartst, hparts, hnm, hpn, hpn2]
    have hid := h2 t ht n hn hp
    simp [jsIdOrEmpty, hid]

theorem c3_resolve_len4 (ts : List EquipmentType) (n : EquipmentType)
    (h1 : ∀ t ∈ ts, t.level = (pathParts t).length)
    (h2 : ∀ a ∈ ts, ∀ b ∈ ts, pathParts a = pathParts b → a.id = b.id)
    (hn : n ∈ ts) (hname : n.name ≠ "") (hlen : (pathParts n).length = 4) :
    findEquipmentTypeIdFromHierarchy (getEquipmentTypeHierarchy n false) ts = n.id := by
  obtain ⟨p1, p2, p3, hp1, hp2, hp3, hp3top, hparts⟩ := pathParts_len_four n hlen
  have hh : getEquipmentTypeHierarchy n false =
      ⟨some p3.name, some p2.name, some p1.name, some n.name, none⟩ := by
    simp [getEquipmentTypeHierarchy, hparts]
  rw [hh]
  have htr : strTruthy (some n.name) = true := by simp [strTruthy, hname]
  have hpred : (fun t => t.level == 4 && some t.name == some n.name &&
      parentName t == some p1.name && parent2Name t == some p2.name &&
      parent3Name t == some p3.name) n = true := by
    simp only [Bool.and_eq_true, beq_iff_eq, Option.some.injEq]
    exact ⟨⟨⟨⟨by rw [h1 n hn, hlen], trivial⟩, parentName_some n p1 hp1⟩,
      parent2Name_some n p1 p2 hp1 hp2⟩, parent3Name_some n p1 p2 p3 hp1 hp2 hp3⟩
  simp only [findEquipmentTypeIdFromHierarchy, strTruthy_none, htr, Bool.false_eq_true,
    if_false, if_true]
  cases hf : ts.find? (fun t => t.level == 4 && some t.name == some n.name &&
      parentName t == some p1.name && parent2Name t == some p2.name &&
      parent3Name t == some p3.name) with
  | none => exact absurd hpred (List.find?_eq_none.mp hf n hn)
  | some t =>
    have hpt := List.find?_some hf
    have ht := List.mem_of_find?_eq_some hf
    simp only [Bool.and_eq_true, beq_iff_eq, Option.some.injEq] at hpt
    obtain ⟨⟨⟨⟨hlev, hnm⟩, hpn⟩, hpn2⟩, hpn3⟩ := hpt
    have hlent : (pathParts t).length = 4 := by rw [← h1 t ht, hlev]
    obtain ⟨q1, q2, q3, hq1, hq2, hq3, hq3top, hpartst⟩ := pathParts_len_four t hlent
    rw [parentName_some t q1 hq1, Option.some.injEq] at hpn
    rw [parent2Name_some t q1 q2 hq1 hq2, Option.some.injEq] at hpn2
    rw [parent3Name_some t q1 q2 q3 hq1 hq2 hq3, Option.some.injEq] at hpn3
    have hp : pathParts t = pathParts n := by rw [hpartst, hparts, hnm, hpn, hpn2, hpn3]
    have hid := h2 t ht n hn hp
    simp [jsIdOrEmpty, hid]

/-- C3, amended: the round-trip
`resolveIdFromPath (getHierarchyPath n) = n.id` holds for every node of
a tree whose stored levels equal the actual ancestor-chain lengths
(at most four), whose full name paths determine node ids uniquely, and
whose name is non-empty; with duplicated full paths the resolver can
return the first match's id instead (see the counterexample). -/
theorem c3_amended (ts : List EquipmentType) (n : EquipmentType)
    (h1 : ∀ t ∈ ts, t.level = (pathParts t).length)
    (h2 : ∀ a ∈ ts, ∀ b ∈ ts, pathParts a = pathParts b → a.id = b.id)
    (hn : n ∈ ts) (hname : n.name ≠ "") (hle : (pathParts n).length ≤ 4) :
    findEquipmentTypeIdFromHierarchy (getEquipmentTypeHierarchy n false) ts = n.id := by
  have hge := pathParts_len_pos n
  have hcases : (pathParts n).length = 1 ∨ (pathParts n).length = 2 ∨
      (pathParts n).length = 3 ∨ (pathParts n).length = 4 := by omega
  rcases hcases with h | h | h | h
  · exact c3_resolve_len1 ts n h1 h2 hn hname h
  · exact c3_resolve_len2 ts n h1 h2 hn hname h
  · exact c3_resolve_len3 ts n h1 h2 hn hname h
  · exact c3_resolve_len4 ts n h1 h2 hn hname h

/-- C3, witness: the round-trip holds for the deepest scenario node. -/
theorem c3_witness :
    findEquipmentTypeIdFromHierarchy
      (getEquipmentTypeHierarchy wallGasBoilerNode false) scenarioTree =
      wallGasBoilerNode.id :=
  c3_amended scenarioTree wallGasBoilerNode (by decide) (by decide)
    (by simp [scenarioTree]) (by decide) (by decide)

/-- The count stored under a domain key of the summary (0 when the key
is absent). -/
def dCount (s : Summary) (d : String) : Nat :=
  ((findA s d).map DomainData.count).getD 0

/-- The count stored under a type key nested below a domain key. -/
def tCount (s : Summary) (d ty : String) : Nat :=
  (((findA s d).bind (fun dd => findA dd.types ty)).map TypeData.count).getD 0

/-- Whether one node makes the source increment the domain counter named
`d`: a level-2 child via its parent, or a level-3/level-4 descendant via
its level-1 ancestor's name (the guards `type.parent?.parent` and
`type.parent?.parent?.parent` of the source are the `isSome` conditions
implied by the name equation). -/
def domContrib (d : String) (t : EquipmentType) : Bool :=
  (t.level == 2 && parentName t == some d) ||
    (t.level == 3 && parent2Name t == some d) ||
    (t.level == 4 && parent3Name t == some d)

/-- Whether one node increments the type counter named `ty` below the
domain named `d`: a level-3 child or a level-4 grandchild. -/
def typeContrib (d ty : String) (t : EquipmentType) : Bool :=
  (t.level == 3 && parent2Name t == some d && parentName t == some ty) ||
    (t.level == 4 && parent3Name t == some d && parent2Name t == some ty)

theorem findA_setA_same {α : Type} (s : List (String × α)) (k : String) (v : α) :
    findA (setA s k v) k = some v := by
  induction s with
  | nil => simp [setA, findA]
  | cons kv rest ih =>
    obtain ⟨k', v'⟩ := kv
    by_cases h : k' = k
    · simp [setA, findA, h]
    · simp [setA, findA, h, ih]

theorem findA_setA_ne {α : Type} (s : List (String × α)) (k k' : String) (v : α)
    (h : k' ≠ k) : findA (setA s k v) k' = findA s k' := by
  induction s with
  | nil => simp [setA, findA, Ne.symm h]
  | cons kv rest ih =>
    obtain ⟨k0, v0⟩ := kv
    by_cases h0 : k0 = k
    · subst h0
      simp [setA, findA, Ne.symm h]
    · simp [setA, findA, h0, ih]

theorem findA_ensure_same (s : Summary) (k : String) :
    findA (if (findA s k).isSome then s else setA s k ⟨0, []⟩) k =
      some ((findA s k).getD ⟨0, []⟩) := by
  cases h : findA s k with
  | none => simp [h, findA_setA_same]
  | some dd => simp [h]

theorem findA_ensure_ne (s : Summary) (k k' : String) (h : k' ≠ k) :
    findA (if (findA s k).isSome then s else setA s k ⟨0, []⟩) k' = findA s k' := by
  cases hh : findA s k with
  | none => simp [hh, findA_setA_ne _ _ _ _ h]
  | some dd => simp [hh]

theorem dCount_eq_getD (s : Summary) (d : String) :
    dCount s d = ((findA s d).getD ⟨0, []⟩).count := by
  cases h : findA s d <;> simp [dCount, h]

theorem tCount_eq_getD (s : Summary) (d ty : String) :
    tCount s d ty = ((findA ((findA s d).getD ⟨0, []⟩).types ty).getD ⟨0, []⟩).count := by
  cases h : findA s d with
  | none => simp [tCount, h, findA]
  | some dd => cases h2 : findA dd.types ty <;> simp [tCount, h, h2]

theorem mapDCount_getD (o : Option DomainData) :
    ((o.map DomainData.count).getD 0) = (o.getD ⟨0, []⟩).count := by
  cases o <;> rfl

theorem mapTCount_getD (o : Option TypeData) :
    ((o.map TypeData.count).getD 0) = (o.getD ⟨0, []⟩).count := by
  cases o <;> rfl

theorem dCount_setA_same (s : Summary) (k : String) (x : DomainData) :
    dCount (setA s k x) k = x.count := by
  simp [dCount, findA_setA_same]

theorem dCount_setA_ne (s : Summary) (k d : String) (x : DomainData) (h : d ≠ k) :
    dCount (setA s k x) d = dCount s d := by
  simp [dCount, findA_setA_ne _ _ _ _ h]

theorem dCount_ensure_ne (s : Summary) (k d : String) (h : d ≠ k) :
    dCount (if (findA s k).isSome then s else setA s k ⟨0, []⟩) d = dCount s d := by
  simp [dCount, findA_ensure_ne _ _ _ h]

theorem tCount_setA_same (s : Summary) (k : String) (x : DomainData) (ty : String) :
    tCount (setA s k x) k ty = ((findA x.types ty).map TypeData.count).getD 0 := by
  simp [tCount, findA_setA_same]

theorem tCount_setA_ne (s : Summary) (k d : String) (x : DomainData) (ty : String)
    (h : d ≠ k) : tCount (setA s k x) d ty = tCount s d ty := by
  simp [tCount, findA_setA_ne _ _ _ _ h]

theorem tCount_ensure_ne (s : Summary) (k d ty : String) (h : d ≠ k) :
    tCount (if (findA s k).isSome then s else setA s k ⟨0, []⟩) d ty = tCount s d ty := by
  simp [tCount, findA_ensure_ne _ _ _ h]

theorem dCount_bump2 (s : Summary) (dn tn d : String) :
    dCount (bumpDomain2 s dn tn) d = dCount s d + (if d = dn then 1 else 0) := by
  by_cases hd : d = dn
  · subst hd
    simp only [bumpDomain2]
    rw [dCount_setA_same, findA_ensure_same]
    simp [dCount_eq_getD]
  · simp only [bumpDomain2]
    rw [dCount_setA_ne _ _ _ _ hd, dCount_ensure_ne _ _ _ hd]
    simp [hd]

theorem dCount_bump3 (s : Summary) (dn tn cn d : String) :
    dCount (bumpDomain3 s dn tn cn) d = dCount s d + (if d = dn then 1 else 0) := by
  by_cases hd : d = dn
  · subst hd
    simp only [bumpDomain3]
    rw [dCount_setA_same, findA_ensure_same]
    simp [dCount_eq_getD]
  · simp only [bumpDomain3]
    rw [dCount_setA_ne _ _ _ _ hd, dCount_ensure_ne _ _ _ hd]
    simp [hd]

theorem dCount_bump4 (s : Summary) (dn tn cn d : String) :
    dCount (bumpDomain4 s dn tn cn) d = dCount s d + (if d = dn then 1 else 0) := by
  by_cases hd : d = dn
  · subst hd
    simp only [bumpDomain4]
    rw [dCount_setA_same, findA_ensure_same]
    simp [dCount_eq_getD]
  · simp only [bumpDomain4]
    rw [dCount_setA_ne _ _ _ _ hd, dCount_ensure_ne _ _ _ hd]
    simp [hd]

theorem tCount_bump2 (s : Summary) (dn tn d ty : String) :
    tCount (bumpDomain2 s dn tn) d ty =
      if d = dn ∧ ty = tn then 0 else tCount s d ty := by
  by_cases hd : d = dn
  · subst hd
    simp only [bumpDomain2]
    rw [tCount_setA_same]
    by_cases hty : ty = tn
    · subst hty
      rw [findA_setA_same]
      simp
    · rw [findA_setA_ne _ _ _ _ hty, findA_ensure_same]
      simp [hty, mapTCount_getD, tCount_eq_getD]
  · simp only [bumpDomain2]
    rw [tCount_setA_ne _ _ _ _ _ hd, tCount_ensure_ne _ _ _ _ hd]
    simp [hd]

theorem tCount_bump3 (s : Summary) (dn tn cn d ty : String) :
    tCount (bumpDomain3 s dn tn cn) d ty =
      tCount s d ty + (if d = dn ∧ ty = tn then 1 else 0) := by
  by_cases hd : d = dn
  · subst hd
    simp only [bumpDomain3]
    rw [tCount_setA_same]
    by_cases hty : ty = tn
    · subst hty
      rw [findA_setA_same, findA_ensure_same]
      simp [tCount_eq_getD]
    · rw [findA_setA_ne _ _ _ _ hty, findA_ensure_same]
      simp [hty, mapTCount_getD, tCount_eq_getD]
  · simp only [bumpDomain3]
    rw [tCount_setA_ne _ _ _ _ _ hd, tCount_ensure_ne _ _ _ _ hd]
    simp [hd]

theorem tCount_bump4 (s : Summary) (dn tn cn d ty : String) :
    tCount (bumpDomain4 s dn tn cn) d ty =
      tCount s d ty + (if d = dn ∧ ty = tn then 1 else 0) := by
  by_cases hd : d = dn
  · subst hd
    simp only [bumpDomain4]
    rw [tCount_setA_same]
    by_cases hty : ty = tn
    · subst hty
      rw [findA_setA_same, findA_ensure_same]
      simp [tCount_eq_getD]
    · rw [findA_setA_ne _ _ _ _ hty, findA_ensure_same]
      simp [hty, mapTCount_getD, tCount_eq_getD]
  · simp only [bumpDomain4]
    rw [tCount_setA_ne _ _ _ _ _ hd, tCount_ensure_ne _ _ _ _ hd]
    simp [hd]

theorem summarizeStep_dCount (s : Summary) (t : EquipmentType)
    (hreset1 : t.level = 1 → dCount s t.name = 0) (d : String) :
    dCount (summarizeStep s t) d =
      dCount s d + (if domContrib d t = true then 1 else 0) := by
  obtain ⟨i, nm, lv, par⟩ := t
  simp only [EquipmentType.level_mk, EquipmentType.name_mk] at hreset1
  by_cases h1 : lv = 1
  · subst h1
    have hcon : domContrib d (EquipmentType.mk i nm 1 par) = false := by
      simp [domContrib]
    have hstep : summarizeStep s (EquipmentType.mk i nm 1 par) = setA s nm ⟨0, []⟩ := by
      simp [summarizeStep]
    rw [hstep, hcon]
    by_cases hd : d = nm
    · subst hd
      rw [dCount_setA_same]
      simp [hreset1 rfl]
    · rw [dCount_setA_ne _ _ _ _ hd]
      simp
  · by_cases h2 : lv = 2
    · subst h2
      cases par with
      | none =>
        have hstep : summarizeStep s (EquipmentType.mk i nm 2 none) = s := by
          simp [summarizeStep]
        have hcon : domContrib d (EquipmentType.mk i nm 2 none) = false := by
          simp [domContrib, parentName, parent2Name, parent3Name]
        rw [hstep, hcon]
        simp
      | some p =>
        have hstep : summarizeStep s (EquipmentType.mk i nm 2 (some p)) =
            bumpDomain2 s p.name nm := by
          simp [summarizeStep]
        rw [hstep, dCount_bump2]
        by_cases hd : d = p.name
        · subst hd
          have hcon : domContrib p.name (EquipmentType.mk i nm 2 (some p)) = true := by
            simp [domContrib, parentName]
          rw [hcon]
          simp
        · have hcon : domContrib d (EquipmentType.mk i nm 2 (some p)) = false := by
            simp [domContrib, parentName, parent2Name, parent3Name, Ne.symm hd]
          rw [hcon]
          simp [hd]
    · by_cases h3 : lv = 3
      · subst h3
        cases par with
        | none =>
          have hstep : summarizeStep s (EquipmentType.mk i nm 3 none) = s := by
            simp [summarizeStep]
          have hcon : domContrib d (EquipmentType.mk i nm 3 none) = false := by
            simp [domContrib, parentName, parent2Name, parent3Name]
          rw [hstep, hcon]
          simp
        | some p =>
          cases hpp : p.parent with
          | none =>
            have hstep : summarizeStep s (EquipmentType.mk i nm 3 (some p)) = s := by
              simp [summarizeStep, hpp]
            have hcon : domContrib d (EquipmentType.mk i nm 3 (some p)) = false := by
              simp [domContrib, parentName, parent2Name, parent3Name, hpp]
            rw [hstep, hcon]
            simp
          | some pp =>
            have hstep : summarizeStep s (EquipmentType.mk i nm 3 (some p)) =
                bumpDomain3 s pp.name p.name nm := by
              simp [summarizeStep, hpp]
            rw [hstep, dCount_bump3]
            by_cases hd : d = pp.name
            · subst hd
              have hcon : domContrib pp.name (EquipmentType.mk i nm 3 (some p)) = true := by
                simp [domContrib, parent2Name, hpp]
              rw [hcon]
              simp
            · have hcon : domContrib d (EquipmentType.mk i nm 3 (some p)) = false := by
                simp [domContrib, parentName, parent2Name, parent3Name, hpp, Ne.symm hd]
              rw [hcon]
              simp [hd]
      · by_cases h4 : lv = 4
        · subst h4
          cases par with
          | none =>
            have hstep : summarizeStep s (EquipmentType.mk i nm 4 none) = s := by
              simp [summarizeStep]
            have hcon : domContrib d (EquipmentType.mk i nm 4 none) = false := by
              simp [domContrib, parentName, parent2Name, parent3Name]
            rw [hstep, hcon]
            simp
          | some p =>
            cases hpp : p.parent with
            | none =>
              have hstep : summarizeStep s (EquipmentType.mk i nm 4 (some p)) = s := by
                simp [summarizeStep, hpp]
              have hcon : domContrib d (EquipmentType.mk i nm 4 (some p)) = false := by
                simp [domContrib, parentName, parent2Name, parent3Name, hpp]
              rw [hstep, hcon]
              simp
            | some pp =>
              cases hppp : pp.parent with
              | none =>
                have hstep : summarizeStep s (EquipmentType.mk i nm 4 (some p)) = s := by
                  simp [summarizeStep, hpp, hppp]
                have hcon : domContrib d (EquipmentType.mk i nm 4 (some p)) = false := by
                  simp [domContrib, parentName, parent2Name, parent3Name, hpp, hppp]
                rw [hstep, hcon]
                simp
              | some ppp =>
                have hstep : summarizeStep s (EquipmentType.mk i nm 4 (some p)) =
                    bumpDomain4 s ppp.name pp.name p.name := by
                  simp [summarizeStep, hpp, hppp]
                rw [hstep, dCount_bump4]
                by_cases hd : d = ppp.name
                · subst hd
                  have hcon : domContrib ppp.name (EquipmentType.mk i nm 4 (some p)) =
                      true := by
                    simp [domContrib, parent3Name, hpp, hppp]
                  rw [hcon]
                  simp
                · have hcon : domContrib d (EquipmentType.mk i nm 4 (some p)) = false := by
                    simp [domContrib, parentName, parent2Name, parent3Name, hpp, hppp,
                      Ne.symm hd]
                  rw [hcon]
                  simp [hd]
        · have hstep : summarizeStep s (EquipmentType.mk i nm lv par) = s := by
            simp [summarizeStep, h1, h2, h3, h4]
          have hcon : domContrib d (EquipmentType.mk i nm lv par) = false := by
            simp [domContrib, h2, h3, h4]
          rw [hstep, hcon]
          simp

theorem summarizeStep_tCount (s : Summary) (t : EquipmentType)
    (hreset1 : t.level = 1 → ∀ ty0, tCount s t.name ty0 = 0)
    (hreset2 : t.level = 2 → ∀ p, t.parent = some p → tCount s p.name t.name = 0)
    (d ty : String) :
    tCount (summarizeStep s t) d ty =
      tCount s d ty + (if typeContrib d ty t = true then 1 else 0) := by
  obtain ⟨i, nm, lv, par⟩ := t
  simp only [EquipmentType.level_mk, EquipmentType.name_mk, EquipmentType.parent_mk]
    at hreset1 hreset2
  by_cases h1 : lv = 1
  · subst h1
    have hcon : typeContrib d ty (EquipmentType.mk i nm 1 par) = false := by
      simp [typeContrib]
    have hstep : summarizeStep s (EquipmentType.mk i nm 1 par) = setA s nm ⟨0, []⟩ := by
      simp [summarizeStep]
    rw [hstep, hcon]
    by_cases hd : d = nm
    · subst hd
      rw [tCount_setA_same]
      simp [findA, hreset1 rfl ty]
    · rw [tCount_setA_ne _ _ _ _ _ hd]
      simp
  · by_cases h2 : lv = 2
    · subst h2
      cases par with
      | none =>
        have hstep : summarizeStep s (EquipmentType.mk i nm 2 none) = s := by
          simp [summarizeStep]
        have hcon : typeContrib d ty (EquipmentType.mk i nm 2 none) = false := by
          simp [typeContrib]
        rw [hstep, hcon]
        simp
      | some p =>
        have hstep : summarizeStep s (EquipmentType.mk i nm 2 (some p)) =
            bumpDomain2 s p.name nm := by
          simp [summarizeStep]
        have hcon : typeContrib d ty (EquipmentType.mk i nm 2 (some p)) = false := by
          simp [typeContrib]
        rw [hstep, hcon, tCount_bump2]
        by_cases hboth : d = p.name ∧ ty = nm
        · obtain ⟨hd, hty⟩ := hboth
          subst hd
          subst hty
          simp [hreset2 rfl p rfl]
        · rw [if_neg hboth]
          simp
    · by_cases h3 : lv = 3
      · subst h3
        cases par with
        | none =>
          have hstep : summarizeStep s (EquipmentType.mk i nm 3 none) = s := by
            simp [summarizeStep]
          have hcon : typeContrib d ty (EquipmentType.mk i nm 3 none) = false := by
            simp [typeContrib, parentName, parent2Name, parent3Name]
          rw [hstep, hcon]
          simp
        | some p =>
          cases hpp : p.parent with
          | none =>
            have hstep : summarizeStep s (EquipmentType.mk i nm 3 (some p)) = s := by
              simp [summarizeStep, hpp]
            have hcon : typeContrib d ty (EquipmentType.mk i nm 3 (some p)) = false := by
              simp [typeContrib, parentName, parent2Name, parent3Name, hpp]
            rw [hstep, hcon]
            simp
          | some pp =>
            have hstep : summarizeStep s (EquipmentType.mk i nm 3 (some p)) =
                bumpDomain3 s pp.name p.name nm := by
              simp [summarizeStep, hpp]
            rw [hstep, tCount_bump3]
            by_cases hboth : d = pp.name ∧ ty = p.name
            · obtain ⟨hd, hty⟩ := hboth
              subst hd
              subst hty
              have hcon : typeContrib pp.name p.name (EquipmentType.mk i nm 3 (some p)) =
                  true := by
                simp [typeContrib, parentName, parent2Name, hpp]
              rw [hcon]
              simp
            · have hcon : typeContrib d ty (EquipmentType.mk i nm 3 (some p)) = false := by
                rw [Bool.eq_false_iff]
                intro hcontra
                simp [typeContrib, parentName, parent2Name, parent3Name, hpp] at hcontra
                exact hboth ⟨hcontra.1.symm, hcontra.2.symm⟩
              rw [hcon, if_neg hboth]
              simp
      · by_cases h4 : lv = 4
        · subst h4
          cases par with
          | none =>
            have hstep : summarizeStep s (EquipmentType.mk i nm 4 none) = s := by
              simp [summarizeStep]
            have hcon : typeContrib d ty (EquipmentType.mk i nm 4 none) = false := by
              simp [typeContrib, parentName, parent2Name, parent3Name]
            rw [hstep, hcon]
            simp
          | some p =>
            cases hpp : p.parent with
            | none =>
              have hstep : summarizeStep s (EquipmentType.mk i nm 4 (some p)) = s := by
                simp [summarizeStep, hpp]
              have hcon : typeContrib d ty (EquipmentType.mk i nm 4 (some p)) = false := by
                simp [typeContrib, parentName, parent2Name, parent3Name, hpp]
              rw [hstep, hcon]
              simp
            | some pp =>
              cases hppp : pp.parent with
              | none =>
                have hstep : summarizeStep s (EquipmentType.mk i nm 4 (some p)) = s := by
                  simp [summarizeStep, hpp, hppp]
                have hcon : typeContrib d ty (EquipmentType.mk i nm 4 (some p)) =
                    false := by
                  simp [typeContrib, parentName, parent2Name, parent3Name, hpp, hppp]
                rw [hstep, hcon]
                simp
              | some ppp =>
                have hstep : summarizeStep s (EquipmentType.mk i nm 4 (some p)) =
                    bumpDomain4 s ppp.name pp.name p.name := by
                  simp [summarizeStep, hpp, hppp]
                rw [hstep, tCount_bump4]
                by_cases hboth : d = ppp.name ∧ ty = pp.name
                · obtain ⟨hd, hty⟩ := hboth
                  subst hd
                  subst hty
                  have hcon : typeContrib ppp.name pp.name
                      (EquipmentType.mk i nm 4 (some p)) = true := by
                    simp [typeContrib, parent2Name, parent3Name, hpp, hppp]
                  rw [hcon]
                  simp
                · have hcon : typeContrib d ty (EquipmentType.mk i nm 4 (some p)) =
                      false := by
                    rw [Bool.eq_false_iff]
                    intro hcontra
                    simp [typeContrib, parentName, parent2Name, parent3Name, hpp, hppp]
                      at hcontra
                    exact hboth ⟨hcontra.1.symm, hcontra.2.symm⟩
                  rw [hcon, if_neg hboth]
                  simp
        · have hstep : summarizeStep s (EquipmentType.mk i nm lv par) = s := by
            simp [summarizeStep, h1, h2, h3, h4]
          have hcon : typeContrib d ty (EquipmentType.mk i nm lv par) = false := by
            simp [typeContrib, h3, h4]
          rw [hstep, hcon]
          simp

theorem foldl_summarize_counts :
    ∀ (l : List EquipmentType) (s : Summary),
    l.Pairwise (fun a b => a.level ≤ b.level) →
    (∀ u ∈ l, u.level = 1 → dCount s u.name = 0) →
    (∀ u ∈ l, u.level = 1 → ∀ ty0, tCount s u.name ty0 = 0) →
    (∀ u ∈ l, u.level = 2 → ∀ p, u.parent = some p → tCount s p.name u.name = 0) →
    ∀ d ty,
      dCount (l.foldl summarizeStep s) d = dCount s d + l.countP (domContrib d) ∧
      tCount (l.foldl summarizeStep s) d ty =
        tCount s d ty + l.countP (typeContrib d ty)
  | [], s, _, _, _, _, d, ty => by simp
  | t :: rest, s, hpair, hresD, hresT1, hresT2, d, ty => by
    obtain ⟨hhead, hrest⟩ := List.pairwise_cons.mp hpair
    have hd1 : t.level = 1 → dCount s t.name = 0 :=
      fun h => hresD t (List.mem_cons_self t rest) h
    have ht1 : t.level = 1 → ∀ ty0, tCount s t.name ty0 = 0 :=
      fun h => hresT1 t (List.mem_cons_self t rest) h
    have ht2 : t.level = 2 → ∀ p, t.parent = some p → tCount s p.name t.name = 0 :=
      fun h => hresT2 t (List.mem_cons_self t rest) h
    have hnoD : ∀ u ∈ rest, t.level ≤ u.level → u.level = 1 →
        ∀ d0, domContrib d0 t = false := by
      intro u hu hle hu1 d0
      rw [Bool.eq_false_iff]
      intro hc
      simp only [domContrib, Bool.or_eq_true, Bool.and_eq_true, beq_iff_eq] at hc
      cases hc with
      | inl hc2 =>
        cases hc2 with
        | inl hcc => exact absurd hcc.1 (by omega)
        | inr hcc => exact absurd hcc.1 (by omega)
      | inr hcc => exact absurd hcc.1 (by omega)
    have hnoT : ∀ u ∈ rest, t.level ≤ u.level → u.level ≤ 2 →
        ∀ d0 ty0, typeContrib d0 ty0 t = false := by
      intro u hu hle hu2 d0 ty0
      rw [Bool.eq_false_iff]
      intro hc
      simp only [typeContrib, Bool.or_eq_true, Bool.and_eq_true, beq_iff_eq] at hc
      cases hc with
      | inl hcc => exact absurd hcc.1.1 (by omega)
      | inr hcc => exact absurd hcc.1.1 (by omega)
    have hresD' : ∀ u ∈ rest, u.level = 1 →
        dCount (summarizeStep s t) u.name = 0 := by
      intro u hu hu1
      rw [summarizeStep_dCount s t hd1 u.name,
        hresD u (List.mem_cons_of_mem t hu) hu1,
        hnoD u hu (hhead u hu) hu1 u.name]
      simp
    have hresT1' : ∀ u ∈ rest, u.level = 1 → ∀ ty0,
        tCount (summarizeStep s t) u.name ty0 = 0 := by
      intro u hu hu1 ty0
      rw [summarizeStep_tCount s t ht1 ht2 u.name ty0,
        hresT1 u (List.mem_cons_of_mem t hu) hu1 ty0,
        hnoT u hu (hhead u hu) (by omega) u.name ty0]
      simp
    have hresT2' : ∀ u ∈ rest, u.level = 2 → ∀ p, u.parent = some p →
        tCount (summarizeStep s t) p.name u.name = 0 := by
      intro u hu hu2 p hp
      rw [summarizeStep_tCount s t ht1 ht2 p.name u.name,
        hresT2 u (List.mem_cons_of_mem t hu) hu2 p hp,
        hnoT u hu (hhead u hu) (by omega) p.name u.name]
      simp
    have ih := foldl_summarize_counts rest (summarizeStep s t) hrest hresD' hresT1'
      hresT2' d ty
    rw [List.foldl_cons] at *
    constructor
    · rw [ih.1, summarizeStep_dCount s t hd1 d, List.countP_cons]
      omega
    · rw [ih.2, summarizeStep_tCount s t ht1 ht2 d ty, List.countP_cons]
      omega

/-- C6, counterexample: in the scenario chain the summary records 3 for
domain "HEATING" although it has exactly one level-2 (type) child, and 2
for type "Boiler" although it has exactly one level-3 (category) child —
the source increments the domain counter for level-3 and level-4
descendants too, and the type counter for level-4 grandchildren. -/
theorem c6_counterexample :
    dCount (buildSummary scenarioTree) ("HEATING") = 3 ∧
    scenarioTree.countP (fun t => t.level == 2 && parentName t == some ("HEATING")) = 1 ∧
    tCount (buildSummary scenarioTree) ("HEATING") ("Boiler") = 2 ∧
    scenarioTree.countP (fun t => t.level == 3 && parentName t == some ("Boiler")) = 1 ∧
    (3 : Nat) ≠ 1 ∧ (2 : Nat) ≠ 1 := by
  decide

/-- C6, amended: for a node list sorted by non-decreasing level (so that
a later node never resets an already counted entry), the count recorded
under a domain name equals the number of its level-2 children *plus* its
level-3 and level-4 descendants, and the count recorded under a type
name equals the number of its level-3 children *plus* its level-4
grandchildren, counted through the stored parent-name chains. -/
theorem c6_amended (ts : List EquipmentType)
    (hsort : ts.Pairwise (fun a b => a.level ≤ b.level)) (d ty : String) :
    dCount (buildSummary ts) d = ts.countP (domContrib d) ∧
    tCount (buildSummary ts) d ty = ts.countP (typeContrib d ty) := by
  have h := foldl_summarize_counts ts [] hsort
    (by intro u hu h1; simp [dCount, findA])
    (by intro u hu h1 ty0; simp [tCount, findA])
    (by intro u hu h2 p hp; simp [tCount, findA])
    d ty
  simpa [buildSummary, dCount, tCount, findA] using h

/-- C6, witness: the amended count identities evaluated on the scenario
chain. -/
theorem c6_witness :
    dCount (buildSummary scenarioTree) ("HEATING") =
      scenarioTree.countP (domContrib ("HEATING")) ∧
    tCount (buildSummary scenarioTree) ("HEATING") ("Boiler") =
      scenarioTree.countP (typeContrib ("HEATING") ("Boiler")) :=
  c6_amended scenarioTree (by decide) ("HEATING") ("Boiler")

/-- C8, witness: a response with no brace-delimited block fails to
parse. -/
theorem c8_witness :
    (parseAIResponse (fun _ => none) ("no json here")).isOk = false := by
  have h := (c8_theorem (fun _ => none) ("no json here") []
    ⟨none, none, none, none, none, none⟩).1
  rw [h]
  decide
